import Mathlib

/-!
Verification of the configuration ingestion and filename-resolution core of
lab-recorder-python (src/labrecorder/cfg_loader.py and
src/labrecorder/utils/config.py).

Strings are modelled as `List Char` (`Str`).  Python's `str` operations used by
the code (strip, find, split, replace, startswith/endswith, lower) are embedded
one-to-one below; each definition's doc comment names the source construct it
embeds.  Scope notes: Python's whitespace set and `\d`/`lower` are modelled over
ASCII; `float` values are carried as their source text (the code never inspects
a float value in the properties below, only stores it).
-/

namespace LabRec

/-- Strings as lists of characters. -/
abbrev Str := List Char

/-- Conversion from Lean string literals to the `List Char` model. -/
def S (s : String) : Str := s.toList

/-- Python `str.strip()` whitespace test, ASCII subset
(space, tab, newline, carriage return, vertical tab, form feed). -/
def pyIsSpace (c : Char) : Bool :=
  c = ' ' || c = '\t' || c = '\n' || c = '\r' || c = '\x0b' || c = '\x0c'

/-- Python `s.strip()`: drop leading and trailing whitespace. -/
def pyStrip (l : Str) : Str :=
  ((l.dropWhile pyIsSpace).reverse.dropWhile pyIsSpace).reverse

/-- Python `s.find(c)` for a single character, as an optional index
(`None` standing for `-1`). -/
def firstIdx (c : Char) : Str → Option Nat
  | [] => none
  | x :: xs => if x = c then some 0 else (firstIdx c xs).map (· + 1)

/-- Embeds `_strip_comment`'s per-separator step from cfg_loader.py:
truncate at the first occurrence of `sep` when its index is 0 or the text
before it does not strip to the empty string. -/
def stripSepLoader (sep : Char) (line : Str) : Str :=
  match firstIdx sep line with
  | none => line
  | some i => if i = 0 || !(pyStrip (line.take i)).isEmpty then line.take i else line

/-- Embeds `_strip_comment` from cfg_loader.py: the `(';', '#')` loop followed
by `line.strip()`. -/
def stripCommentLoader (line : Str) : Str :=
  pyStrip (stripSepLoader '#' (stripSepLoader ';' line))

/-- Embeds `_strip_comment`'s per-separator step from utils/config.py:
unconditionally truncate at the first occurrence of `sep`. -/
def stripSepConfig (sep : Char) (line : Str) : Str :=
  match firstIdx sep line with
  | none => line
  | some i => line.take i

/-- Embeds `_strip_comment` from utils/config.py. -/
def stripCommentConfig (line : Str) : Str :=
  pyStrip (stripSepConfig '#' (stripSepConfig ';' line))

/-- Python `s.split(sep)` for a single-character separator: every occurrence
splits, empty chunks are kept. -/
def pySplitOn (sep : Char) : Str → List Str
  | [] => [[]]
  | c :: s =>
    if c = sep then [] :: pySplitOn sep s
    else
      match pySplitOn sep s with
      | r :: rs => (c :: r) :: rs
      | [] => [[c]]

/-- Python `s.strip(c)` for a one-character set: drop every leading and
trailing occurrence of `c`. -/
def pyStripChar (c : Char) (l : Str) : Str :=
  ((l.dropWhile (· = c)).reverse.dropWhile (· = c)).reverse

/-- The per-item cleaning of `_parse_value`'s quoted branch: one layer of
double quotes when the item starts and ends with `"` and has length ≥ 2,
otherwise `item.strip('"').strip("'")`. -/
def cleanItem (item : Str) : Str :=
  if item.head? = some '"' && item.getLast? = some '"' && decide (2 ≤ item.length) then
    (item.drop 1).dropLast
  else
    pyStripChar '\'' (pyStripChar '"' item)

/-- Full match of the regex `[-+]?\d+` (ASCII digits). -/
def intPat (s : Str) : Bool :=
  match s with
  | [] => false
  | c :: rest =>
    if c = '+' || c = '-' then !rest.isEmpty && rest.all Char.isDigit
    else s.all Char.isDigit

/-- Full match of the regex `[-+]?\d*\.\d+` (ASCII digits). -/
def floatPat (s : Str) : Bool :=
  let t := match s with
    | c :: rest => if c = '+' || c = '-' then rest else s
    | [] => s
  match firstIdx '.' t with
  | none => false
  | some i =>
    (t.take i).all Char.isDigit && !(t.drop (i+1)).isEmpty
      && (t.drop (i+1)).all Char.isDigit

/-- Numeric value of a digit string. -/
def digitsVal (l : Str) : Nat :=
  l.foldl (fun acc c => 10 * acc + (c.toNat - '0'.toNat)) 0

/-- Python `int(s)` on a string that fully matches `[-+]?\d+`. -/
def intOf (s : Str) : Int :=
  match s with
  | '-' :: rest => - (digitsVal rest : Int)
  | '+' :: rest => (digitsVal rest : Int)
  | _ => (digitsVal s : Int)

/-- The dynamic value union the Python code manipulates: parsed config values
(str, int, float, list) and the JSON-like store values (bool, dict as an
association list in insertion order).  A float carries its source text; the
code under verification never inspects a float beyond storing it. -/
inductive PyVal where
  | str (s : Str)
  | int (n : Int)
  | float (src : Str)
  | bool (b : Bool)
  | list (xs : List PyVal)
  | dict (m : List (Str × PyVal))

/-- Is the value a Python dict? -/
def PyVal.isDict : PyVal → Bool
  | .dict _ => true
  | _ => false

/-- Embeds `_parse_value` (identical in cfg_loader.py and utils/config.py):
strip, empty yields `''`, a `"` anywhere yields the comma-split quoted-list
branch (single element unwrapped), then the int pattern, the float pattern,
the redundant `'0'`/`'1'` branch, else the stripped text.  The `int(s)` /
`float(s)` calls cannot fail on a full regex match, so the `try/except`
around them is dead and not modelled. -/
def parse_value (raw : Str) : PyVal :=
  let s := pyStrip raw
  if s.isEmpty then PyVal.str []
  else if s.contains '"' then
    let cleaned := (pySplitOn ',' s).map (fun item => cleanItem (pyStrip item))
    match cleaned with
    | [x] => PyVal.str x
    | xs => PyVal.list (xs.map PyVal.str)
  else if intPat s then PyVal.int (intOf s)
  else if floatPat s then PyVal.float s
  else if s = S "0" || s = S "1" then PyVal.int (intOf s)
  else PyVal.str s

/-- A parsed `RawConfigMap`: key/value pairs in insertion order, duplicate
keys overwritten in place (Python dict semantics). -/
abbrev CfgMap := List (Str × PyVal)

/-- Association-list lookup (Python `dict.get` / `in`). -/
def assocLookup (m : List (Str × α)) (k : Str) : Option α :=
  match m with
  | [] => none
  | (k', v) :: rest => if k' = k then some v else assocLookup rest k

/-- Association-list assignment (Python `d[k] = v`): overwrite in place,
else append. -/
def assocSet (m : List (Str × α)) (k : Str) (v : α) : List (Str × α) :=
  match m with
  | [] => [(k, v)]
  | (k', v') :: rest => if k' = k then (k, v) :: rest else (k', v') :: assocSet rest k v

/-- Splitting a line at its first `=` (Python `line.split('=', 1)`); `none`
when the line has no `=`. -/
def splitFirstEq (line : Str) : Option (Str × Str) :=
  match firstIdx '=' line with
  | none => none
  | some i => some (line.take i, line.drop (i+1))

/-- One iteration of the cfg parsing loops: strip comments with the given
stripper, skip empty and `=`-less lines, else store the trimmed key with the
parsed value. -/
def parseLineInto (strip : Str → Str) (m : CfgMap) (raw : Str) : CfgMap :=
  let line := strip raw
  if line.isEmpty then m
  else
    match splitFirstEq line with
    | none => m
    | some kv => assocSet m (pyStrip kv.1) (parse_value kv.2)

/-- Embeds `parse_cfg_file`'s parsing loop from cfg_loader.py, over the list
of lines read from the file. -/
def parse_cfg_lines_loader (lines : List Str) : CfgMap :=
  lines.foldl (parseLineInto stripCommentLoader) []

/-- Embeds the parsing loop of `Config._load_from_cfg` from utils/config.py
(which uses that file's own `_strip_comment`). -/
def parse_cfg_lines_config (lines : List Str) : CfgMap :=
  lines.foldl (parseLineInto stripCommentConfig) []

/-- Decimal digits of a natural number, fuel-structured so concrete values
reduce in the kernel; the fuel `n+1` always suffices. -/
def natReprAux : Nat → Nat → Str
  | 0, _ => []
  | fuel + 1, n =>
    if n < 10 then [Nat.digitChar n]
    else natReprAux fuel (n / 10) ++ [Nat.digitChar (n % 10)]

/-- Python `str` of a nonnegative integer. -/
def natRepr (n : Nat) : Str := natReprAux (n + 1) n

/-- Python `str(int)`. -/
def intRepr (n : Int) : Str :=
  if n < 0 then '-' :: natRepr n.natAbs else natRepr n.natAbs

/-- Python `str(v)` for the value shapes the parser produces.  A float prints
its carried source text; list items are rendered with `repr`-style single
quotes (the parser only ever puts plain strings inside lists; nested
containers, which the parser cannot produce, are rendered as an ellipsis). -/
def pyReprAtom : PyVal → Str
  | .str s => '\'' :: s ++ ['\'']
  | .int n => intRepr n
  | .float src => src
  | .bool b => if b then S "True" else S "False"
  | .list _ => S "..."
  | .dict _ => S "..."

/-- Comma-space interleaving used by Python's list rendering. -/
def joinCommaSpace : List Str → Str
  | [] => []
  | [x] => x
  | x :: y :: rest => x ++ ',' :: ' ' :: joinCommaSpace (y :: rest)

/-- Python `str(v)`. -/
def pyStr : PyVal → Str
  | .str s => s
  | .int n => intRepr n
  | .float src => src
  | .bool b => if b then S "True" else S "False"
  | .list xs => '[' :: joinCommaSpace (xs.map pyReprAtom) ++ [']']
  | .dict _ => S "\x7b...\x7d"

/-- Python truthiness of the modelled values (`None` is modelled by the
`Option` wrapping at use sites). -/
def isFalsy : PyVal → Bool
  | .str s => s.isEmpty
  | .int n => n = 0
  | .float src => src.all (fun c => c = '0' || c = '.' || c = '+' || c = '-')
  | .bool b => !b
  | .list xs => xs.isEmpty
  | .dict m => m.isEmpty

/-- Python `str(cfg.get(k) or '')`. -/
def strOrEmpty (o : Option PyVal) : Str :=
  match o with
  | none => []
  | some v => if isFalsy v then [] else pyStr v

/-- The stripped text of a config field as computed by
`str(cfg.get(k) or '').strip()`. -/
def cfgField (cfg : CfgMap) (k : Str) : Str :=
  pyStrip (strOrEmpty (assocLookup cfg k))

/-- Python `str(cfg.get(k) or dflt)`: the placeholder override fields. -/
def phField (cfg : CfgMap) (k : Str) (dflt : Str) : Str :=
  match assocLookup cfg k with
  | none => dflt
  | some v => if isFalsy v then dflt else pyStr v

/-- The placeholder dictionary of `build_filename_from_cfg` /
`Config._load_from_cfg`, in Python dict insertion order; the wall-clock
tokens (`datetime`, `date`, `time`) and the hostname are parameters since
they are read from the environment at call time. -/
def buildPlaceholders (cfg : CfgMap) (host dt d t : Str) : List (Str × Str) :=
  [(S "datetime", dt), (S "date", d), (S "time", t), (S "hostname", host),
   (S "m", phField cfg (S "BidsModality") (S "eeg")),
   (S "p", phField cfg (S "Participant") (S "P001")),
   (S "s", phField cfg (S "Session") (S "S001")),
   (S "b", phField cfg (S "Block") (S "task")),
   (S "a", phField cfg (S "Acq") (S "acq")),
   (S "r", phField cfg (S "Run") (S "01"))]

/-- Python `s.replace(pat, rep)` (all non-overlapping occurrences, left to
right), fuel-structured so concrete calls reduce in the kernel; the fuel
`s.length + 1` always suffices since every step consumes at least one
character of `s` (the empty-pattern case is handled without recursion). -/
def pyReplaceAux : Nat → Str → Str → Str → Str
  | 0, s, _, _ => s
  | fuel + 1, s, pat, rep =>
    if pat.isEmpty then rep ++ s.flatMap (fun c => c :: rep)
    else
      match s with
      | [] => []
      | c :: s' =>
        if pat.isPrefixOf (c :: s') then
          rep ++ pyReplaceAux fuel (s'.drop (pat.length - 1)) pat rep
        else c :: pyReplaceAux fuel s' pat rep

/-- Python `s.replace(pat, rep)`. -/
def pyReplace (s pat rep : Str) : Str := pyReplaceAux (s.length + 1) s pat rep

/-- Embeds `expand_template` (cfg_loader.py) / `_expand_template`
(utils/config.py): for each placeholder in dict order, replace `%<name>`
throughout the accumulated string. -/
def expand_template (template : Str) (ps : List (Str × Str)) : Str :=
  ps.foldl (fun acc kv => pyReplace acc ('%' :: kv.1) kv.2) template

/-- Python `os.path.split` (POSIX): cut after the last `/`; the head keeps
its trailing slashes only when it consists solely of slashes. -/
def pySplitPath (p : Str) : Str × Str :=
  match (firstIdx '/' p.reverse).map (fun i => p.length - 1 - i) with
  | none => ([], p)
  | some i =>
    let head := p.take (i+1)
    let tail := p.drop (i+1)
    (if head.all (fun c => c = '/') then head
     else (head.reverse.dropWhile (fun c => c = '/')).reverse, tail)

/-- Python `os.path.join` (POSIX) for two components. -/
def pyJoin (a b : Str) : Str :=
  if b.head? = some '/' then b
  else if a.isEmpty || a.getLast? = some '/' then a ++ b
  else a ++ '/' :: b

/-- The Windows-reserved characters replaced by `_sanitize_basename`. -/
def badChars : Str := ['<', '>', ':', '"', '/', '\\', '|', '?', '*']

/-- Embeds `_sanitize_basename`: `re.sub(r'[<>:"/\\|?*]', '-', name)`
followed by `name.rstrip(' .')`. -/
def sanitize_basename (name : Str) : Str :=
  let replaced := name.map (fun c => if badChars.contains c then '-' else c)
  (replaced.reverse.dropWhile (fun c => c = ' ' || c = '.')).reverse

/-- The split/sanitize/join step shared by `build_filename_from_cfg` and
`Config._load_from_cfg`. -/
def sanitizeJoin (p : Str) : Str :=
  let pr := pySplitPath p
  pyJoin pr.1 (sanitize_basename pr.2)

/-- Python `s.lower()` (ASCII scope). -/
def pyLower (s : Str) : Str := s.map Char.toLower

/-- The `.xdf` extension enforcement: append `.xdf` unless the lowered name
already ends with it. -/
def ensureXdf (dest : Str) : Str :=
  if (S ".xdf").isSuffixOf (pyLower dest) then dest else dest ++ S ".xdf"

/-- The five-way fallback of `build_filename_from_cfg` (cfg_loader.py lines
151-162) choosing the destination before extension and sanitization. -/
def resolveDest (cfg : CfgMap) (host dt d t : Str) : Str :=
  let ph := buildPlaceholders cfg host dt d t
  let sl := cfgField cfg (S "StorageLocation")
  let sr := cfgField cfg (S "StudyRoot")
  let pt := cfgField cfg (S "PathTemplate")
  if !sl.isEmpty then expand_template sl ph
  else if !sr.isEmpty && !pt.isEmpty then pyJoin sr (expand_template pt ph)
  else if !sr.isEmpty then
    pyJoin sr (S "LabRecorder_" ++ host ++ S "_" ++ dt ++ S "_eeg.xdf")
  else if !pt.isEmpty then expand_template pt ph
  else S "recording.xdf"

/-- Embeds `build_filename_from_cfg`: fallback resolution, extension
enforcement, basename sanitization, and the final
`os.path.expandvars(os.path.expanduser(...))` — the latter depends on the
process environment and is abstracted as the parameter `env`. -/
def build_filename_from_cfg (cfg : CfgMap) (host dt d t : Str)
    (env : Str → Str) : Str :=
  env (sanitizeJoin (ensureXdf (resolveDest cfg host dt d t)))

/-- Embeds `Config.get`: walk the nested dicts segment by segment; any
missing key or non-dict intermediate raises `KeyError`/`TypeError`, which
the code catches and turns into the caller's default.  (Indexing a
non-dict store value with a string key raises `TypeError` for every value
shape the store can hold.) -/
def getPath (t : PyVal) : List Str → PyVal → PyVal
  | [], _ => t
  | k :: ks, d =>
    match t with
    | PyVal.dict m =>
      match assocLookup m k with
      | some v => getPath v ks d
      | none => d
    | _ => d

/-- The walk of `Config.get` without a default: `some` exactly when every
segment resolves through nested dicts. -/
def resolves (t : PyVal) : List Str → Option PyVal
  | [] => some t
  | k :: ks =>
    match t with
    | PyVal.dict m => (assocLookup m k).bind (fun v => resolves v ks)
    | _ => none

/-- Embeds `Config.set`: walk the segments before the last, creating `{}`
only for an absent key; reaching a non-dict value while segments remain
(or for the final assignment) raises `TypeError` in Python, modelled as
`Except.error`.  The raise happens before any mutation (a scalar can only
be met while walking pre-existing dicts), so the error case faithfully
leaves no partial update. -/
def setPath (t : PyVal) : List Str → PyVal → Except Unit PyVal
  | [], _ => Except.error ()
  | [k], v =>
    match t with
    | PyVal.dict m => Except.ok (PyVal.dict (assocSet m k v))
    | _ => Except.error ()
  | k :: k2 :: ks, v =>
    match t with
    | PyVal.dict m =>
      match assocLookup m k with
      | some child =>
        (setPath child (k2 :: ks) v).map (fun c => PyVal.dict (assocSet m k c))
      | none =>
        (setPath (PyVal.dict []) (k2 :: ks) v).map
          (fun c => PyVal.dict (assocSet m k c))
    | _ => Except.error ()

/-- The precondition under which `Config.set`'s walk cannot raise: each
intermediate segment is either absent (a fresh `{}` is created) or holds a
dict, and the value finally assigned lands in a dict. -/
def settable (t : PyVal) : List Str → Bool
  | [] => false
  | [_] => t.isDict
  | k :: k2 :: ks =>
    match t with
    | PyVal.dict m =>
      match assocLookup m k with
      | none => settable (PyVal.dict []) (k2 :: ks)
      | some c => settable c (k2 :: ks)
    | _ => false

/-- Embeds `Config._deep_update`: for every overlay key, recurse when both
sides hold dicts, otherwise the overlay value replaces the base value. -/
def deep_update : List (Str × PyVal) → List (Str × PyVal) → List (Str × PyVal)
  | b, [] => b
  | b, (k, PyVal.dict um) :: rest =>
    (match assocLookup b k with
     | some (PyVal.dict bm) => deep_update (assocSet b k (PyVal.dict (deep_update bm um))) rest
     | _ => deep_update (assocSet b k (PyVal.dict um)) rest)
  | b, (k, v) :: rest => deep_update (assocSet b k v) rest

/-- The fixed `Config.DEFAULT_CONFIG` tree. -/
def defaultConfigVal : PyVal :=
  PyVal.dict
    [(S "filename", PyVal.str (S "recording.xdf")),
     (S "remote_control", PyVal.dict
       [(S "enabled", PyVal.bool true), (S "port", PyVal.int 22345)]),
     (S "recording", PyVal.dict
       [(S "buffer_size", PyVal.int 360),
        (S "max_samples_per_pull", PyVal.int 500),
        (S "clock_sync_interval", PyVal.float (S "5.0"))]),
     (S "streams", PyVal.dict
       [(S "timeout", PyVal.float (S "2.0")), (S "recover", PyVal.bool true)])]

/-- Python `int(x)` over the modelled values: `some` is the result, `none`
a raised `ValueError`/`TypeError` (absorbed by the inner `try/except pass`
blocks of `_load_from_cfg`).  `int` of a string strips whitespace and
accepts an optional sign followed by digits (underscore grouping and
non-ASCII digits are out of the modelled scope); `int` of a float
truncates toward zero, which on the carried decimal text is the signed
integer part. -/
def pyInt : PyVal → Option Int
  | PyVal.int n => some n
  | PyVal.bool b => some (if b then 1 else 0)
  | PyVal.str s => if intPat (pyStrip s) then some (intOf (pyStrip s)) else none
  | PyVal.float src =>
    match src with
    | '-' :: rest => some (- (digitsVal (rest.takeWhile Char.isDigit) : Int))
    | '+' :: rest => some (digitsVal (rest.takeWhile Char.isDigit) : Int)
    | _ => some (digitsVal (src.takeWhile Char.isDigit) : Int)
  | _ => none

/-- The `try: self.set(path, v) except Exception: pass` pattern of
`_load_from_cfg`'s RCSEnabled/RCSPort/AutoStart handling. -/
def trySet (store : PyVal) (path : List Str) (v : PyVal) : PyVal :=
  match setPath store path v with
  | Except.ok s => s
  | Except.error _ => store

/-- `str(x)` over each element of RequiredStreams
(`[str(x) for x in raw]` / `[str(raw)]`). -/
def requiredList (v : PyVal) : List Str :=
  match v with
  | PyVal.list xs => xs.map pyStr
  | other => [pyStr other]

/-- Embeds `Config._load_from_cfg` given the file's lines, the ambient
hostname/time tokens and `env` for the final
`os.path.expandvars(os.path.expanduser(...))`.  Returns the store the call
leaves behind and whether an exception escaped to `load_from_file`'s
`except` (the store is returned as already mutated at the moment of the
raise).  The two raise points are: a non-string pre-existing `filename`
reaching `dest.lower()` (before any mutation), and the RequiredStreams
item assignment when the store's `streams` value is not a dict (after
`filename` was already set). -/
def loadCfgLines (store : PyVal) (lines : List Str) (host dt d t : Str)
    (env : Str → Str) : PyVal × Bool :=
  match store with
  | PyVal.dict sm =>
    let cfg := parse_cfg_lines_config lines
    let sl := cfgField cfg (S "StorageLocation")
    let sr := cfgField cfg (S "StudyRoot")
    let pt := cfgField cfg (S "PathTemplate")
    let ph := buildPlaceholders cfg host dt d t
    let dest? : Option Str :=
      if !sl.isEmpty then some (expand_template sl ph)
      else if !sr.isEmpty && !pt.isEmpty then some (pyJoin sr (expand_template pt ph))
      else if !sr.isEmpty then
        some (pyJoin sr (S "LabRecorder_" ++ host ++ S "_" ++ dt ++ S "_eeg.xdf"))
      else if !pt.isEmpty then some (expand_template pt ph)
      else
        match assocLookup sm (S "filename") with
        | none => some (S "recording.xdf")
        | some (PyVal.str s) => some s
        | some _ => none
    match dest? with
    | none => (store, true)
    | some dest0 =>
      let dest := env (sanitizeJoin (ensureXdf dest0))
      let st1 := trySet store [S "filename"] (PyVal.str dest)
      let st2 :=
        match assocLookup cfg (S "RCSEnabled") with
        | none => st1
        | some v =>
          match pyInt v with
          | some n => trySet st1 [S "remote_control", S "enabled"] (PyVal.bool (n ≠ 0))
          | none => st1
      let st3 :=
        match assocLookup cfg (S "RCSPort") with
        | none => st2
        | some v =>
          match pyInt v with
          | some n => trySet st2 [S "remote_control", S "port"] (PyVal.int n)
          | none => st2
      let st4 :=
        match assocLookup cfg (S "AutoStart") with
        | none => st3
        | some v =>
          match pyInt v with
          | some n => trySet st3 [S "auto_start"] (PyVal.bool (n ≠ 0))
          | none => st3
      match assocLookup cfg (S "RequiredStreams") with
      | none => (st4, false)
      | some v =>
        let req := (requiredList v).map PyVal.str
        match st4 with
        | PyVal.dict m4 =>
          match assocLookup m4 (S "streams") with
          | some (PyVal.dict streamsCfg) =>
            (PyVal.dict (assocSet m4 (S "streams")
              (PyVal.dict (assocSet streamsCfg (S "required_labels") (PyVal.list req)))), false)
          | some _ => (st4, true)
          | none =>
            (PyVal.dict (assocSet m4 (S "streams")
              (PyVal.dict [(S "required_labels", PyVal.list req)])), false)
        | _ => (st4, true)
  | _ => (store, true)

/-- Embeds `Config.load_from_file` on the `.cfg` branch: `none` content
models an unreadable file (`open` raises before any mutation; the
exception is caught and the store left untouched). -/
def load_from_file_cfg (store : PyVal) (content : Option (List Str))
    (host dt d t : Str) (env : Str → Str) : PyVal × Bool :=
  match content with
  | none => (store, true)
  | some lines => loadCfgLines store lines host dt d t env

/-- Embeds `Config.load_from_file` on the JSON branch: `none` models an
unreadable file or invalid JSON (`open`/`json.load` raise before any
mutation); a non-dict top-level value makes `_deep_update` raise at
`.items()` before any mutation; a dict is deep-merged. -/
def load_from_file_json (store : PyVal) (parsed : Option PyVal) : PyVal × Bool :=
  match parsed with
  | none => (store, true)
  | some (PyVal.dict u) =>
    match store with
    | PyVal.dict b => (PyVal.dict (deep_update b u), false)
    | _ => (store, true)
  | some _ => (store, true)

/-- A heap value for the object-identity model of `Config.__init__`'s
`self.config = self.DEFAULT_CONFIG.copy()`: either an immutable scalar or
a reference to a shared mutable dict object. -/
inductive HVal where
  | prim (v : PyVal)
  | ref (a : Nat)

/-- A dict object on the heap. -/
abbrev HDict := List (Str × HVal)

/-- The heap: dict objects addressed by allocation order. -/
abbrev Heap := List HDict

/-- The dict object at an address (addresses are always in range in the
scenarios below). -/
def cellAt (h : Heap) (a : Nat) : HDict := h.getD a []

/-- Overwrite the dict object at an address. -/
def updateCell (h : Heap) (a : Nat) (c : HDict) : Heap := h.set a c

/-- The class attribute `Config.DEFAULT_CONFIG` as heap objects: the top
dict at address 0 holds references to the three nested dicts at addresses
1, 2 and 3. -/
def defaultTopCell : HDict :=
  [(S "filename", HVal.prim (PyVal.str (S "recording.xdf"))),
   (S "remote_control", HVal.ref 1),
   (S "recording", HVal.ref 2),
   (S "streams", HVal.ref 3)]

/-- The initial heap: `DEFAULT_CONFIG` and its nested dicts. -/
def heap0 : Heap :=
  [defaultTopCell,
   [(S "enabled", HVal.prim (PyVal.bool true)),
    (S "port", HVal.prim (PyVal.int 22345))],
   [(S "buffer_size", HVal.prim (PyVal.int 360)),
    (S "max_samples_per_pull", HVal.prim (PyVal.int 500)),
    (S "clock_sync_interval", HVal.prim (PyVal.float (S "5.0")))],
   [(S "timeout", HVal.prim (PyVal.float (S "2.0"))),
    (S "recover", HVal.prim (PyVal.bool true))]]

/-- Embeds `Config.__init__` (no config file): allocate a new top dict that
is a SHALLOW copy of `DEFAULT_CONFIG` — the top-level pairs are copied,
the references to the nested dicts are shared.  Returns the new heap and
the instance's top-dict address. -/
def configNew (h : Heap) : Heap × Nat := (h ++ [cellAt h 0], h.length)

/-- The walk of `Config.get` on the heap model. -/
def hGetFrom (h : Heap) : HVal → List Str → Option HVal
  | v, [] => some v
  | HVal.ref a, k :: ks =>
    match assocLookup (cellAt h a) k with
    | some v => hGetFrom h v ks
    | none => none
  | HVal.prim _, _ :: _ => none

/-- Embeds `Config.get` on the heap model (exceptions turned into the
default, as in the Python `try/except`). -/
def configGet (h : Heap) (a : Nat) (path : List Str) (dflt : HVal) : HVal :=
  (hGetFrom h (HVal.ref a) path).getD dflt

/-- Embeds `Config.set` on the heap model: walk the segments before the
last through shared dict objects, allocating `{}` for absent keys,
mutating the final dict object in place; a scalar intermediate raises. -/
def hSet (h : Heap) (a : Nat) : List Str → HVal → Except Unit Heap
  | [], _ => Except.error ()
  | [k], v => Except.ok (updateCell h a (assocSet (cellAt h a) k v))
  | k :: k2 :: ks, v =>
    match assocLookup (cellAt h a) k with
    | some (HVal.ref a') => hSet h a' (k2 :: ks) v
    | some (HVal.prim _) => Except.error ()
    | none =>
      let aNew := h.length
      let h' := updateCell (h ++ [[]]) a (assocSet (cellAt h a) k (HVal.ref aNew))
      hSet h' aNew (k2 :: ks) v

/-- The heap after constructing instance A. -/
def heap1 : Heap := (configNew heap0).1

/-- The heap after constructing instances A (address 4) and B (address 5). -/
def heap2 : Heap := (configNew heap1).1

/-- The heap after `A.set('remote_control.port', 9999)`. -/
def heap3 : Heap :=
  match hSet heap2 4 [S "remote_control", S "port"] (HVal.prim (PyVal.int 9999)) with
  | Except.ok h => h
  | Except.error _ => heap2

/-- The heap after additionally constructing instance C (address 6). -/
def heap4 : Heap := (configNew heap3).1

/-- The guard under which the two `_strip_comment` variants coincide: every
`;` or `#` occurrence on the line is either at column 0 or has at least one
non-whitespace character somewhere before it. -/
def lineOk (line : Str) : Bool :=
  (List.range line.length).all (fun i =>
    !(line.get? i == some ';' || line.get? i == some '#')
      || (i == 0 || (line.take i).any (fun d => !pyIsSpace d)))

/-- The store `Config.set` leaves behind, with the (unreachable under
`settable`) error case mapped to the unchanged store. -/
def setPathD (t : PyVal) (ks : List Str) (v : PyVal) : PyVal :=
  match setPath t ks v with
  | Except.ok t' => t'
  | Except.error _ => t

/-- A `RawConfigMap` with `Participant` set to the literal text `%r`
(and `Run` left to its default `01`). -/
def participantRunCfg : CfgMap := [(S "Participant", PyVal.str (S "%r"))]

/-- A pre-load store state: the default filename together with a scalar at
the `streams` key (put there by an earlier `set('streams', 5)`). -/
def c8Store : PyVal :=
  PyVal.dict [(S "filename", PyVal.str (S "recording.xdf")), (S "streams", PyVal.int 5)]

/-- Lines of a legacy `.cfg` file that set `StorageLocation` and
`RequiredStreams`. -/
def c8Lines : List Str := [S "StorageLocation=loc", S "RequiredStreams=req"]

/-- The dot path `remote_control.port` after `key.split('.')`. -/
def rcPortPath : List Str := [S "remote_control", S "port"]

/-- A `RawConfigMap` with all three path fields set, for checking
precedence. -/
def c2Cfg : CfgMap :=
  [(S "StorageLocation", PyVal.str (S "store.xdf")),
   (S "StudyRoot", PyVal.str (S "/data")),
   (S "PathTemplate", PyVal.str (S "%p.xdf"))]

/-! ### Shared lemmas -/

/-- Assigning a key makes it look up to the assigned value. -/
theorem assocLookup_assocSet_self (m : List (Str × α)) (k : Str) (v : α) :
    assocLookup (assocSet m k v) k = some v := by
  induction m with
  | nil => simp [assocSet, assocLookup]
  | cons kv rest ih =>
    obtain ⟨k', v'⟩ := kv
    by_cases h : k' = k <;> simp [assocSet, assocLookup, h, ih]

/-- A list with a non-whitespace member does not strip to the empty
string. -/
theorem pyStrip_isEmpty_false {l : Str}
    (h : l.any (fun d => !pyIsSpace d) = true) : (pyStrip l).isEmpty = false := by
  obtain ⟨x, hx, hnx⟩ := List.any_eq_true.mp h
  cases hs : pyStrip l with
  | cons a as => simp [List.isEmpty]
  | nil =>
    exfalso
    have h1 : (((l.dropWhile pyIsSpace).reverse.dropWhile pyIsSpace)) = [] :=
      List.reverse_eq_nil_iff.mp hs
    have h2 : ∀ y ∈ (l.dropWhile pyIsSpace).reverse, pyIsSpace y = true :=
      List.dropWhile_eq_nil_iff.mp h1
    have h3 : ∀ y ∈ l.dropWhile pyIsSpace, pyIsSpace y = true := by
      intro y hy; exact h2 y (List.mem_reverse.mpr hy)
    have hx' : x ∈ l.takeWhile pyIsSpace ++ l.dropWhile pyIsSpace := by
      rw [List.takeWhile_append_dropWhile]; exact hx
    rcases List.mem_append.mp hx' with hxa | hxb
    · simp [List.mem_takeWhile_imp hxa] at hnx
    · simp [h3 x hxb] at hnx

/-- `firstIdx` yields an in-range index. -/
theorem firstIdx_lt {c : Char} :
    ∀ {l : Str} {i : Nat}, firstIdx c l = some i → i < l.length := by
  intro l
  induction l with
  | nil => intro i h; simp [firstIdx] at h
  | cons x xs ih =>
    intro i h
    by_cases hx : x = c
    · simp [firstIdx, hx] at h
      simp only [List.length_cons]
      omega
    · simp [firstIdx, hx] at h
      obtain ⟨j, hj, rfl⟩ := h
      have h2 := ih hj
      simp only [List.length_cons]
      omega

/-- `firstIdx` indexes an occurrence of the character. -/
theorem firstIdx_get? {c : Char} :
    ∀ {l : Str} {i : Nat}, firstIdx c l = some i → l.get? i = some c := by
  intro l
  induction l with
  | nil => intro i h; simp [firstIdx] at h
  | cons x xs ih =>
    intro i h
    by_cases hx : x = c
    · simp [firstIdx, hx] at h; subst h; simp [hx]
    · simp [firstIdx, hx] at h
      obtain ⟨j, hj, rfl⟩ := h
      simpa using ih hj

/-- `firstIdx` of a list not containing the character. -/
theorem firstIdx_eq_none {c : Char} :
    ∀ {l : Str}, c ∉ l → firstIdx c l = none := by
  intro l
  induction l with
  | nil => intro _; rfl
  | cons x xs ih =>
    intro h
    have hx : ¬x = c := fun hc => h (hc ▸ List.mem_cons_self x xs)
    simp [firstIdx, hx, ih (fun hm => h (List.mem_cons_of_mem x hm))]

/-- `firstIdx` finds the marked position after a clean prefix. -/
theorem firstIdx_append_cons {c : Char} (xs ys : Str) (h : c ∉ xs) :
    firstIdx c (xs ++ c :: ys) = some xs.length := by
  induction xs with
  | nil => simp [firstIdx]
  | cons x xs ih =>
    have hx : ¬x = c := fun hc => h (hc ▸ List.mem_cons_self x xs)
    have hm : c ∉ xs := fun hm => h (List.mem_cons_of_mem x hm)
    simp [firstIdx, hx, ih hm]

/-- Splitting on a character produces one more chunk than the character's
occurrence count. -/
theorem pySplitOn_length (c : Char) (l : Str) :
    (pySplitOn c l).length = l.count c + 1 := by
  induction l with
  | nil => simp [pySplitOn]
  | cons x xs ih =>
    by_cases hx : x = c
    · simp [pySplitOn, hx, List.count_cons, ih]
    · cases hsp : pySplitOn c xs with
      | nil => rw [hsp] at ih; simp at ih
      | cons r rs =>
        rw [hsp] at ih
        simp at ih
        simp [pySplitOn, hx, hsp, List.count_cons, ih]

/-- The sanitized base name never contains a path separator (every `/` is
replaced by `-`). -/
theorem sanitize_head_ne_slash (b : Str) :
    (sanitize_basename b).head? ≠ some '/' := by
  intro h
  have hm : '/' ∈ sanitize_basename b := List.mem_of_mem_head? h
  unfold sanitize_basename at hm
  have hm2 := List.mem_reverse.mp hm
  have hm3 := (List.dropWhile_sublist _).mem hm2
  have hm4 := List.mem_reverse.mp hm3
  obtain ⟨a, _, ha⟩ := List.mem_map.mp hm4
  by_cases hb : badChars.contains a = true
  · rw [if_pos hb] at ha
    exact absurd ha (by decide)
  · rw [if_neg hb] at ha
    subst ha
    exact hb (by decide)

/-- Unpacking `lineOk` at a marker position. -/
theorem lineOk_spec {line : Str} (h : lineOk line = true) {i : Nat}
    (hi : i < line.length) (hm : line.get? i = some ';' ∨ line.get? i = some '#') :
    i = 0 ∨ (line.take i).any (fun d => !pyIsSpace d) = true := by
  have hall := List.all_eq_true.mp h i (List.mem_range.mpr hi)
  rcases hm with hm | hm <;>
  · rw [hm] at hall
    simp at hall
    rcases hall with h0 | hany
    · exact Or.inl h0
    · obtain ⟨x, hx, hnx⟩ := hany
      exact Or.inr (List.any_eq_true.mpr ⟨x, hx, by simp [hnx]⟩)

/-- `lineOk` is preserved by truncation. -/
theorem lineOk_take {line : Str} (h : lineOk line = true) (n : Nat) :
    lineOk (line.take n) = true := by
  apply List.all_eq_true.mpr
  intro i hi
  have hi' : i < (line.take n).length := List.mem_range.mp hi
  have hin : i < n ∧ i < line.length := by
    simp only [List.length_take, Nat.lt_min] at hi'
    exact hi'
  have hget : (line.take n).get? i = line.get? i := by
    rw [List.get?_eq_getElem?, List.get?_eq_getElem?, List.getElem?_take, if_pos hin.1]
  have htake : (line.take n).take i = line.take i := by
    rw [List.take_take, Nat.min_eq_left (Nat.le_of_lt hin.1)]
  rw [hget, htake]
  exact List.all_eq_true.mp h i (List.mem_range.mpr hin.2)

/-- On a `lineOk` line the two per-separator steps agree. -/
theorem stripSep_eq {line : Str} (h : lineOk line = true) {sep : Char}
    (hs : sep = ';' ∨ sep = '#') :
    stripSepLoader sep line = stripSepConfig sep line := by
  unfold stripSepLoader stripSepConfig
  cases hf : firstIdx sep line with
  | none => rfl
  | some i =>
    simp only [hf]
    have hi := firstIdx_lt hf
    have hg := firstIdx_get? hf
    have hm : line.get? i = some ';' ∨ line.get? i = some '#' := by
      rcases hs with h1 | h1
      · exact Or.inl (h1 ▸ hg)
      · exact Or.inr (h1 ▸ hg)
    rcases lineOk_spec h hi hm with h0 | hany
    · simp [h0]
    · simp [pyStrip_isEmpty_false hany]

/-- C10: the two `_strip_comment` implementations are NOT equivalent on
every line — a marker preceded only by whitespace is stripped by
utils/config.py but kept by cfg_loader.py. -/
theorem c10_divergence_counterexample :
    stripCommentLoader (S "  #x") = S "#x" ∧
    stripCommentConfig (S "  #x") = S "" ∧
    stripCommentLoader (S "  #x") ≠ stripCommentConfig (S "  #x") :=
  ⟨rfl, rfl, by decide⟩

/-- C10 (amended): the two `_strip_comment` implementations return the same
stripped string on every line in which each occurrence of `;` or `#` is at
column 0 or has at least one non-whitespace character before it on the
line. -/
theorem c10_equiv_amended (line : Str) (h : lineOk line = true) :
    stripCommentLoader line = stripCommentConfig line := by
  unfold stripCommentLoader stripCommentConfig
  rw [stripSep_eq h (Or.inl rfl)]
  have h1 : lineOk (stripSepConfig ';' line) = true := by
    unfold stripSepConfig
    cases hf : firstIdx ';' line with
    | none => exact h
    | some i => exact lineOk_take h i
  rw [stripSep_eq h1 (Or.inr rfl)]

/-- C10 witness: a concrete line satisfying the guard, on which the two
implementations agree. -/
theorem c10_witness :
    lineOk (S "key=1 ; trailing") = true ∧
    stripCommentLoader (S "key=1 ; trailing") =
      stripCommentConfig (S "key=1 ; trailing") :=
  ⟨by decide, c10_equiv_amended (S "key=1 ; trailing") (by decide)⟩

/-- C1: evaluation of the cfg_loader comment stripper at the claim's inputs.
The code truncates `val=a;b` at the `;` (parsed value `a`, not `a;b`) and
leaves `   ; x` untouched apart from the final strip: its condition
`idx == 0 or line[:idx].strip() != ''` fires when the prefix contains
non-whitespace — the opposite of the rule in the claim and in the code's own
comment ("Only treat as comment if sep is at start or preceded by
whitespace"). -/
theorem c1_strip_comment_eval :
    parse_cfg_lines_loader [S "val=a;b"] = [(S "val", PyVal.str (S "a"))] ∧
    parse_cfg_lines_loader [S "key=1 ; trailing"] = [(S "key", PyVal.int 1)] ∧
    stripCommentLoader (S "val=a;b") = S "val=a" ∧
    stripCommentLoader (S "   ; x") = S "; x" ∧
    S "a" ≠ S "a;b" :=
  ⟨rfl, rfl, rfl, rfl, by decide⟩

/-- C3: substituted values ARE re-scanned — with `Participant` set to the
text `%r`, expanding `%p` yields the Run default `01`, not `%r` as the
claim states. -/
theorem c3_rescan_counterexample :
    expand_template (S "%p")
      (buildPlaceholders participantRunCfg (S "host") (S "DT") (S "D") (S "T")) = S "01" ∧
    S "01" ≠ S "%r" :=
  ⟨rfl, by decide⟩

/-- C3 (amended): expansion replaces `%<name>` by literal substring
substitution once per placeholder name, sequentially in the fixed dict
order datetime, date, time, hostname, m, p, s, b, a, r; a value substituted
for an earlier name is re-scanned when later names are processed: with
`Participant = "%r"`, the template `%p` resolves to the Run default `01`
for every hostname and every time-token values. -/
theorem c3_sequential_amended (host dt d t : Str) :
    expand_template (S "%p") (buildPlaceholders participantRunCfg host dt d t) = S "01" := by
  simp only [expand_template, buildPlaceholders, List.foldl]
  rw [show pyReplace (S "%p") ('%' :: S "datetime") dt = S "%p" from rfl]
  rw [show pyReplace (S "%p") ('%' :: S "date") d = S "%p" from rfl]
  rw [show pyReplace (S "%p") ('%' :: S "time") t = S "%p" from rfl]
  rw [show pyReplace (S "%p") ('%' :: S "hostname") host = S "%p" from rfl]
  rfl

/-- C4: the else-branch of the quoted-list item cleaning strips ALL leading
and trailing quote characters, not "one layer only when present on both
ends": the item `"x` (double quote on one end only) loses its quote. -/
theorem c4_quote_strip_counterexample :
    parse_value (S "\"x") = PyVal.str (S "x") ∧
    S "x" ≠ S "\"x" :=
  ⟨rfl, by decide⟩

/-- C4 (amended): for value text whose stripped form contains a `"`, the
parser splits on every `,` (one chunk more than the comma count), trims
each chunk, removes exactly one layer of double quotes when the chunk
starts and ends with `"` and has length ≥ 2, and otherwise strips ALL
leading and trailing `"` characters and then all leading and trailing `'`
characters; a single-element result is unwrapped to a plain string,
otherwise a list of strings is returned. -/
theorem c4_quoted_amended (raw : Str) (h : (pyStrip raw).contains '"' = true) :
    (pySplitOn ',' (pyStrip raw)).length = (pyStrip raw).count ',' + 1 ∧
    parse_value raw =
      (match (pySplitOn ',' (pyStrip raw)).map (fun item => cleanItem (pyStrip item)) with
       | [x] => PyVal.str x
       | xs => PyVal.list (xs.map PyVal.str)) := by
  have hne : (pyStrip raw).isEmpty = false := by
    cases hs : pyStrip raw with
    | nil => rw [hs] at h; simp [List.contains] at h
    | cons a l => simp [List.isEmpty]
  constructor
  · exact pySplitOn_length ',' (pyStrip raw)
  · simp only [parse_value, hne, h]
    rfl

/-- C4 witness: the spec's own list example, checked through the amended
statement. -/
theorem c4_witness :
    (pySplitOn ',' (pyStrip (S "\"a\", \"b\""))).length =
      (pyStrip (S "\"a\", \"b\"")).count ',' + 1 ∧
    parse_value (S "\"a\", \"b\"") =
      (match (pySplitOn ',' (pyStrip (S "\"a\", \"b\""))).map (fun item => cleanItem (pyStrip item)) with
       | [x] => PyVal.str x
       | xs => PyVal.list (xs.map PyVal.str)) :=
  c4_quoted_amended (S "\"a\", \"b\"") (by decide)

/-- C5: `Config.set` DOES raise when an intermediate segment holds a
scalar — on the default store, `set('remote_control.port.x', 0)` walks
into the integer `22345` and Python raises `TypeError`. -/
theorem c5_scalar_intermediate_counterexample :
    setPath defaultConfigVal [S "remote_control", S "port", S "x"] (PyVal.int 0) =
      Except.error () :=
  rfl

/-- C5 (amended): `set` creates an intermediate mapping only for an absent
segment; when every intermediate segment is absent or holds a mapping
(`settable`), the walk succeeds, the value is assigned at the last segment
overwriting any prior scalar or subtree, and a subsequent `get` of the
same path returns it; when an intermediate segment holds a non-mapping the
call raises instead. -/
theorem c5_set_roundtrip :
    ∀ (ks : List Str) (t : PyVal) (v d : PyVal), settable t ks = true →
      setPath t ks v = Except.ok (setPathD t ks v) ∧
      getPath (setPathD t ks v) ks d = v := by
  intro ks
  induction ks with
  | nil => intro t v d h; simp [settable] at h
  | cons k ks' ih =>
    intro t v d h
    cases ks' with
    | nil =>
      cases t <;> simp [settable, PyVal.isDict] at h
      case dict m =>
        refine ⟨rfl, ?_⟩
        simp [setPathD, setPath, getPath, assocLookup_assocSet_self]
    | cons k2 ks'' =>
      cases t <;> simp [settable] at h
      case dict m =>
        have hstep : setPath (PyVal.dict m) (k :: k2 :: ks'') v =
            match assocLookup m k with
            | some child =>
              (setPath child (k2 :: ks'') v).map (fun c => PyVal.dict (assocSet m k c))
            | none =>
              (setPath (PyVal.dict []) (k2 :: ks'') v).map
                (fun c => PyVal.dict (assocSet m k c)) := rfl
        have hgstep : ∀ (c : PyVal),
            getPath (PyVal.dict (assocSet m k c)) (k :: k2 :: ks'') d =
              getPath c (k2 :: ks'') d := by
          intro c
          have : getPath (PyVal.dict (assocSet m k c)) (k :: k2 :: ks'') d =
              match assocLookup (assocSet m k c) k with
              | some w => getPath w (k2 :: ks'') d
              | none => d := rfl
          rw [this, assocLookup_assocSet_self]
        cases hl : assocLookup m k with
        | none =>
          simp only [settable, hl] at h
          obtain ⟨hset, hget⟩ := ih (PyVal.dict []) v d h
          have hd : setPathD (PyVal.dict m) (k :: k2 :: ks'') v =
              PyVal.dict (assocSet m k (setPathD (PyVal.dict []) (k2 :: ks'') v)) := by
            unfold setPathD
            rw [hstep, hl, hset]
            rfl
          refine ⟨?_, ?_⟩
          · rw [hstep, hl, hset, hd]
            rfl
          · rw [hd, hgstep, hget]
        | some child =>
          simp only [settable, hl] at h
          obtain ⟨hset, hget⟩ := ih child v d h
          have hd : setPathD (PyVal.dict m) (k :: k2 :: ks'') v =
              PyVal.dict (assocSet m k (setPathD child (k2 :: ks'') v)) := by
            unfold setPathD
            rw [hstep, hl]
            simp only [hset]
            rfl
          refine ⟨?_, ?_⟩
          · rw [hstep, hl]
            simp only [hset]
            rw [hd]
            rfl
          · rw [hd, hgstep, hget]

/-- C5 witness: setting `remote_control.x` on the default store succeeds
and is read back. -/
theorem c5_witness :
    setPath defaultConfigVal [S "remote_control", S "x"] (PyVal.str (S "v")) =
      Except.ok (setPathD defaultConfigVal [S "remote_control", S "x"] (PyVal.str (S "v"))) ∧
    getPath (setPathD defaultConfigVal [S "remote_control", S "x"] (PyVal.str (S "v")))
      [S "remote_control", S "x"] (PyVal.int 7) = PyVal.str (S "v") :=
  c5_set_roundtrip [S "remote_control", S "x"] defaultConfigVal
    (PyVal.str (S "v")) (PyVal.int 7) (by decide)

/-- C6: `Config.__init__` seeds each instance from `DEFAULT_CONFIG`, but
`DEFAULT_CONFIG.copy()` is a SHALLOW copy: the nested dicts are shared
objects.  In the heap model, after constructing A (address 4) and B
(address 5), `A.set('remote_control.port', 9999)` mutates the shared cell,
so B — and a C constructed afterwards (address 6) — read 9999 where they
read 22345 before, contradicting exclusive ownership. -/
theorem c6_shared_default_eval :
    configGet heap1 4 [S "filename"] (HVal.prim (PyVal.str [])) =
      HVal.prim (PyVal.str (S "recording.xdf")) ∧
    configGet heap2 5 rcPortPath (HVal.prim (PyVal.str [])) =
      HVal.prim (PyVal.int 22345) ∧
    hSet heap2 4 rcPortPath (HVal.prim (PyVal.int 9999)) = Except.ok heap3 ∧
    configGet heap3 5 rcPortPath (HVal.prim (PyVal.str [])) =
      HVal.prim (PyVal.int 9999) ∧
    configGet heap4 6 rcPortPath (HVal.prim (PyVal.str [])) =
      HVal.prim (PyVal.int 9999) :=
  ⟨rfl, rfl, rfl, rfl, rfl⟩

/-- C7: `Config.get` never partially succeeds — it returns exactly the
fully-resolved value when every segment walks through nested dicts, and
the caller's default otherwise; in particular
`get('remote_control.port', d)` returns `d` whenever `remote_control` is
absent or holds a non-mapping. -/
theorem c7_get_default_characterization :
    (∀ (ks : List Str) (t : PyVal) (d : PyVal),
      getPath t ks d = (resolves t ks).getD d) ∧
    (∀ (m : List (Str × PyVal)) (d : PyVal),
      (∀ sub, assocLookup m (S "remote_control") = some sub → sub.isDict = false) →
      getPath (PyVal.dict m) rcPortPath d = d) := by
  constructor
  · intro ks
    induction ks with
    | nil => intro t d; rfl
    | cons k ks' ih =>
      intro t d
      cases t <;> simp [getPath, resolves]
      case dict m =>
        cases hl : assocLookup m k with
        | none => simp [getPath, resolves, hl]
        | some v => simp [getPath, resolves, hl, ih]
  · intro m d hsub
    cases hl : assocLookup m (S "remote_control") with
    | none => simp [rcPortPath, getPath, hl]
    | some sub =>
      have := hsub sub hl
      cases sub <;> simp [PyVal.isDict] at this ⊢ <;> simp [rcPortPath, getPath, hl]

/-- C7 witness: a store whose `remote_control` key holds the integer 5
yields the caller's default 9999. -/
theorem c7_witness :
    getPath (PyVal.dict [(S "remote_control", PyVal.int 5)]) rcPortPath
      (PyVal.int 9999) = PyVal.int 9999 :=
  c7_get_default_characterization.2 [(S "remote_control", PyVal.int 5)]
    (PyVal.int 9999)
    (fun sub hsub => by
      simp [assocLookup] at hsub
      rw [← hsub]
      rfl)

/-- `os.path.split` on a path whose base name is slash-free and whose
directory part does not end in `/`: the head is the directory part (or `/`
for a root path), the tail is the base name. -/
theorem pySplitPath_append (d b : Str) (hb : '/' ∉ b)
    (hd : d.getLast? ≠ some '/') :
    pySplitPath (d ++ '/' :: b) = (if d.isEmpty then ['/'] else d, b) := by
  unfold pySplitPath
  have hrev : (d ++ '/' :: b).reverse = b.reverse ++ '/' :: d.reverse := by
    simp
  have hfi : firstIdx '/' ((d ++ '/' :: b).reverse) = some b.length := by
    rw [hrev]
    have h2 := firstIdx_append_cons (c := '/') b.reverse d.reverse
      (fun hm => hb (List.mem_reverse.mp hm))
    simpa using h2
  rw [hfi]
  simp only [Option.map_some']
  have hidx : (d ++ '/' :: b).length - 1 - b.length = d.length := by
    simp [List.length_append]
  rw [hidx]
  have htake : (d ++ '/' :: b).take (d.length + 1) = d ++ ['/'] := by
    have h3 : d ++ '/' :: b = (d ++ ['/']) ++ b := by simp
    rw [h3, List.take_left']
    simp
  have hdrop : (d ++ '/' :: b).drop (d.length + 1) = b := by
    have h3 : d ++ '/' :: b = (d ++ ['/']) ++ b := by simp
    rw [h3, List.drop_left']
    simp
  rw [htake, hdrop]
  cases d with
  | nil =>
    simp
  | cons c0 d' =>
    cases hrev2 : (c0 :: d').reverse with
    | nil => simp at hrev2
    | cons x rest =>
      have hxl : (c0 :: d').getLast? = some x := by
        rw [← List.head?_reverse, hrev2]
        rfl
      have hx : ¬x = '/' := by
        intro h
        rw [h] at hxl
        exact hd hxl
      have hxmem : x ∈ c0 :: d' := by
        rw [← List.mem_reverse, hrev2]
        exact List.mem_cons_self x rest
      have hall : (((c0 :: d') ++ ['/']).all (fun c => c = '/')) = false := by
        cases hba : (((c0 :: d') ++ ['/']).all (fun c => decide (c = '/'))) with
        | false => rfl
        | true =>
          have := List.all_eq_true.mp hba x (List.mem_append_left _ hxmem)
          simp [hx] at this
      rw [if_neg (by rw [hall]; exact Bool.false_ne_true)]
      have hrdrop : ((((c0 :: d') ++ ['/']).reverse.dropWhile (fun c => c = '/')).reverse)
          = c0 :: d' := by
        have h4 : ((c0 :: d') ++ ['/']).reverse = '/' :: (c0 :: d').reverse := by
          simp
        rw [h4, List.dropWhile_cons, hrev2, List.dropWhile_cons]
        simp [hx, ← hrev2]
      rw [hrdrop]
      simp

/-- C9: the sanitizer does NOT preserve every character of the directory
portion — duplicate slashes before the base name are collapsed by the
`os.path.split` / `os.path.join` round trip, so `a//b` (directory portion
`a//`, base `b` needing no sanitization) comes back as `a/b`. -/
theorem c9_dir_collapse_counterexample :
    sanitizeJoin (S "a//b") = S "a/b" ∧
    sanitize_basename (S "b") = S "b" ∧
    S "a/b" ≠ S "a//" ++ S "b" :=
  ⟨rfl, rfl, by decide⟩

/-- C9 (amended): the sanitizer modifies only the final path component —
each character of the base name in `< > : " / \ | ? *` becomes `-` and
trailing spaces and dots are stripped — and rejoins it to the directory
portion, which is preserved verbatim whenever it does not end in an extra
`/` (trailing slashes of the directory portion are otherwise collapsed by
the split/join round trip); a path with no separator at all is sanitized
whole. -/
theorem c9_sanitize_amended :
    (∀ d b : Str, '/' ∉ b → d.getLast? ≠ some '/' →
      sanitizeJoin (d ++ '/' :: b) = d ++ '/' :: sanitize_basename b) ∧
    (∀ b : Str, '/' ∉ b → sanitizeJoin b = sanitize_basename b) := by
  constructor
  · intro d b hb hd
    unfold sanitizeJoin
    rw [pySplitPath_append d b hb hd]
    cases d with
    | nil =>
      show pyJoin ['/'] (sanitize_basename b) = [] ++ '/' :: sanitize_basename b
      unfold pyJoin
      rw [if_neg (sanitize_head_ne_slash b)]
      rw [if_pos (by rfl)]
      rfl
    | cons c0 d' =>
      show pyJoin (c0 :: d') (sanitize_basename b) =
        (c0 :: d') ++ '/' :: sanitize_basename b
      unfold pyJoin
      rw [if_neg (sanitize_head_ne_slash b)]
      have hcond : ((c0 :: d').isEmpty || decide ((c0 :: d').getLast? = some '/')) = false := by
        simp only [List.isEmpty_cons, Bool.false_or]
        exact decide_eq_false hd
      rw [if_neg (fun hc => Bool.false_ne_true (hcond ▸ hc))]
  · intro b hb
    unfold sanitizeJoin pySplitPath
    have hfi : firstIdx '/' b.reverse = none :=
      firstIdx_eq_none (fun hm => hb (List.mem_reverse.mp hm))
    rw [hfi]
    simp only [Option.map_none']
    unfold pyJoin
    rw [if_neg (sanitize_head_ne_slash b)]
    simp

/-- C9 witness: the spec's own example base name under a directory. -/
theorem c9_witness :
    sanitizeJoin (S "dir" ++ '/' :: S "a:b?c.xdf") =
      S "dir" ++ '/' :: sanitize_basename (S "a:b?c.xdf") :=
  c9_sanitize_amended.1 (S "dir") (S "a:b?c.xdf") (by decide) (by decide)

/-- C2: the five-way first-match-wins fallback of `build_filename_from_cfg`:
a non-empty stripped `StorageLocation` is expanded and used without joining
(taking precedence over the other fields); else `StudyRoot` + `PathTemplate`
are joined; else `StudyRoot` gets the synthesized
`LabRecorder_<hostname>_<datetime>_eeg.xdf` name; else `PathTemplate` alone
is expanded; else the default `recording.xdf` — each followed by the common
extension/sanitize/expand post-processing. -/
theorem c2_fallback_order (cfg : CfgMap) (host dt d t : Str) (env : Str → Str) :
    ((cfgField cfg (S "StorageLocation")).isEmpty = false →
      build_filename_from_cfg cfg host dt d t env =
        env (sanitizeJoin (ensureXdf (expand_template (cfgField cfg (S "StorageLocation"))
          (buildPlaceholders cfg host dt d t))))) ∧
    ((cfgField cfg (S "StorageLocation")).isEmpty = true →
      (cfgField cfg (S "StudyRoot")).isEmpty = false →
      (cfgField cfg (S "PathTemplate")).isEmpty = false →
      build_filename_from_cfg cfg host dt d t env =
        env (sanitizeJoin (ensureXdf (pyJoin (cfgField cfg (S "StudyRoot"))
          (expand_template (cfgField cfg (S "PathTemplate"))
            (buildPlaceholders cfg host dt d t)))))) ∧
    ((cfgField cfg (S "StorageLocation")).isEmpty = true →
      (cfgField cfg (S "StudyRoot")).isEmpty = false →
      (cfgField cfg (S "PathTemplate")).isEmpty = true →
      build_filename_from_cfg cfg host dt d t env =
        env (sanitizeJoin (ensureXdf (pyJoin (cfgField cfg (S "StudyRoot"))
          (S "LabRecorder_" ++ host ++ S "_" ++ dt ++ S "_eeg.xdf"))))) ∧
    ((cfgField cfg (S "StorageLocation")).isEmpty = true →
      (cfgField cfg (S "StudyRoot")).isEmpty = true →
      (cfgField cfg (S "PathTemplate")).isEmpty = false →
      build_filename_from_cfg cfg host dt d t env =
        env (sanitizeJoin (ensureXdf (expand_template (cfgField cfg (S "PathTemplate"))
          (buildPlaceholders cfg host dt d t))))) ∧
    ((cfgField cfg (S "StorageLocation")).isEmpty = true →
      (cfgField cfg (S "StudyRoot")).isEmpty = true →
      (cfgField cfg (S "PathTemplate")).isEmpty = true →
      build_filename_from_cfg cfg host dt d t env =
        env (sanitizeJoin (ensureXdf (S "recording.xdf")))) := by
  refine ⟨?_, ?_, ?_, ?_, ?_⟩
  · intro h1
    simp [build_filename_from_cfg, resolveDest, h1]
  · intro h1 h2 h3
    simp [build_filename_from_cfg, resolveDest, h1, h2, h3]
  · intro h1 h2 h3
    simp [build_filename_from_cfg, resolveDest, h1, h2, h3]
  · intro h1 h2 h3
    simp [build_filename_from_cfg, resolveDest, h1, h2, h3]
  · intro h1 h2 h3
    simp [build_filename_from_cfg, resolveDest, h1, h2, h3]

/-- C2 witness: with all three fields set, `StorageLocation` wins. -/
theorem c2_witness :
    build_filename_from_cfg c2Cfg (S "h") (S "DT") (S "D") (S "T") id =
      id (sanitizeJoin (ensureXdf (expand_template (cfgField c2Cfg (S "StorageLocation"))
        (buildPlaceholders c2Cfg (S "h") (S "DT") (S "D") (S "T"))))) :=
  (c2_fallback_order c2Cfg (S "h") (S "DT") (S "D") (S "T") id).1 (by decide)

/-- C8: a failure inside the legacy loader after the `filename` assignment
is caught and reported, but the store is NOT left at its pre-load state:
with `streams` holding the scalar 5, loading a cfg with `StorageLocation`
and `RequiredStreams` raises `TypeError` at the RequiredStreams item
assignment, after `filename` was already changed from `recording.xdf` to
`loc.xdf` — a partially applied load. -/
theorem c8_partial_load_counterexample :
    (load_from_file_cfg c8Store (some c8Lines) (S "h") (S "DT") (S "D") (S "T") id).2 = true ∧
    getPath (load_from_file_cfg c8Store (some c8Lines) (S "h") (S "DT") (S "D") (S "T") id).1
      [S "filename"] (PyVal.int 0) = PyVal.str (S "loc.xdf") ∧
    getPath c8Store [S "filename"] (PyVal.int 0) = PyVal.str (S "recording.xdf") ∧
    S "loc.xdf" ≠ S "recording.xdf" :=
  ⟨rfl, rfl, rfl, by decide⟩

/-- C8 (amended): errors raised before the first mutation do leave the
store at its pre-load state: an unreadable `.cfg` file, an unreadable or
syntactically invalid JSON file, and a JSON file whose top level is not an
object are all caught and reported with the store unchanged; only a
failure inside the legacy loader after the `filename` assignment (see the
counterexample) leaves a partially applied load. -/
theorem c8_early_error_amended :
    (∀ (store : PyVal) (host dt d t : Str) (env : Str → Str),
      load_from_file_cfg store none host dt d t env = (store, true)) ∧
    (∀ store : PyVal, load_from_file_json store none = (store, true)) ∧
    (∀ (store j : PyVal), j.isDict = false →
      load_from_file_json store (some j) = (store, true)) := by
  refine ⟨fun store host dt d t env => rfl, fun store => rfl, fun store j h => ?_⟩
  cases j with
  | dict m => simp [PyVal.isDict] at h
  | str s => rfl
  | int n => rfl
  | float f => rfl
  | bool b => rfl
  | list xs => rfl

/-- C8 witness: a JSON file parsing to a non-object leaves the store
unchanged. -/
theorem c8_witness :
    load_from_file_json (PyVal.dict []) (some (PyVal.int 3)) = (PyVal.dict [], true) :=
  c8_early_error_amended.2.2 (PyVal.dict []) (PyVal.int 3) rfl

end LabRec
